import Mathlib

/-!
Verification of the RWECC ingestor core (enrichment-and-idempotent-upsert
pipeline). The definitions below are a shallow embedding of the Go program
`ingester_rwecc.go` (the file built by the repository's build script):
the incident data model, the timestamp normalizer, the two-call National
Weather Service enricher (over an abstract HTTP environment, with an
explicit trace of the requests issued), the record merger, the
conflict-aware upsert against the `unified_incidents` table (modelled as a
list of rows), and the batch orchestrator loop from `main`.
-/

/-- Embeds the Go struct `Incident` (the JSON shape of the upstream feed). -/
structure Incident where
  jurisdiction : String
  problem : String
  address : String
  lat : Float
  long : Float
  timestamp : String

/-- Embeds the Go struct `WeatherData` (one NWS forecast period).
`temperature` is a Go `int`, modelled as `Int`. -/
structure WeatherData where
  temperature : Int
  windSpeed : String
  shortForecast : String
  icon : String
  deriving DecidableEq

/-- Embeds the inner `properties` object of the NWS points response. -/
structure NWSPointsProperties where
  forecastHourly : String
  deriving DecidableEq

/-- Embeds the Go struct `NWSPointsResponse`. -/
structure NWSPointsResponse where
  properties : NWSPointsProperties
  deriving DecidableEq

/-- Embeds the inner `properties` object of the NWS hourly response. -/
structure NWSHourlyProperties where
  periods : List WeatherData
  deriving DecidableEq

/-- Embeds the Go struct `NWSHourlyResponse`. -/
structure NWSHourlyResponse where
  properties : NWSHourlyProperties
  deriving DecidableEq

/-- A civil (wall-clock) date-time with millisecond precision, the result of
parsing the feed timestamp with layout `2006-01-02 15:04:05.000`. -/
structure CivilTime where
  year : Nat
  month : Nat
  day : Nat
  hour : Nat
  minute : Nat
  second : Nat
  millis : Nat
  deriving DecidableEq

/-- A Go `time.Time` as produced by `time.ParseInLocation`: a wall-clock
civil time together with the zone in which it is interpreted. -/
structure ZonedTime where
  civil : CivilTime
  zone : String
  deriving DecidableEq

/-- Modelled from the spec and the Go standard library: the numeric value of
a decimal digit character, `none` on a non-digit. -/
def digitVal (c : Char) : Option Nat :=
  if c.isDigit then some (c.toNat - 48) else none

/-- Parse exactly `k` decimal digits from the front of `cs`, accumulating
into `acc`; models the fixed-width numeric fields of the Go time layout. -/
def parseDigits : Nat → Nat → List Char → Option (Nat × List Char)
  | 0, acc, cs => some (acc, cs)
  | Nat.succ k, acc, c :: cs =>
      match digitVal c with
      | some d => parseDigits k (acc * 10 + d) cs
      | none => none
  | Nat.succ _, _, [] => none

/-- Consume one expected literal character of the layout. -/
def expectChar (c : Char) : List Char → Option (List Char)
  | c2 :: cs => if c2 = c then some cs else none
  | [] => none

/-- Parse the textual shape of the fixed Go layout
`2006-01-02 15:04:05.000`: four year digits, two month digits, two day
digits, two hour digits, two minute digits, two second digits and exactly
three millisecond digits, separated by the literal `-`, space, `:` and `.`
characters, with no trailing text. -/
def parseLayoutRWECC (s : String) : Option CivilTime := do
  let cs := s.data
  let (y, cs) ← parseDigits 4 0 cs
  let cs ← expectChar '-' cs
  let (mo, cs) ← parseDigits 2 0 cs
  let cs ← expectChar '-' cs
  let (d, cs) ← parseDigits 2 0 cs
  let cs ← expectChar ' ' cs
  let (h, cs) ← parseDigits 2 0 cs
  let cs ← expectChar ':' cs
  let (mi, cs) ← parseDigits 2 0 cs
  let cs ← expectChar ':' cs
  let (sec, cs) ← parseDigits 2 0 cs
  let cs ← expectChar '.' cs
  let (ms, cs) ← parseDigits 3 0 cs
  match cs with
  | [] => some ⟨y, mo, d, h, mi, sec, ms⟩
  | _ :: _ => none

/-- Gregorian leap-year rule, as used by Go's `time` package. -/
def isLeapYear (y : Nat) : Bool :=
  y % 4 == 0 && (y % 100 != 0 || y % 400 == 0)

/-- Number of days in a month, as used by Go's `time` package. -/
def daysInMonth (y m : Nat) : Nat :=
  if m == 2 then (if isLeapYear y then 29 else 28)
  else if m == 4 || m == 6 || m == 9 || m == 11 then 30
  else 31

/-- Go's range validation during `time.Parse`: month in 1..12, day in
1..daysInMonth, hour in 0..23, minute and second in 0..59. -/
def validCivil (t : CivilTime) : Bool :=
  1 ≤ t.month && t.month ≤ 12 && 1 ≤ t.day && t.day ≤ daysInMonth t.year t.month
    && t.hour ≤ 23 && t.minute ≤ 59 && t.second ≤ 59

/-- The fixed civil zone of the feed, `time.LoadLocation("America/New_York")`
in `saveToUnifiedDB`. -/
def newYorkZone : String := "America/New_York"

/-- Models the call
`time.ParseInLocation("2006-01-02 15:04:05.000", s, newYork)` of
`saveToUnifiedDB` (the Go standard-library parser restricted to this fixed
layout): the string must match the layout exactly and pass Go's range
checks, and the resulting instant is the parsed wall-clock time interpreted
in the America/New_York zone. -/
def parseInLocationNY (s : String) : Option ZonedTime :=
  match parseLayoutRWECC s with
  | some t => if validCivil t then some ⟨t, newYorkZone⟩ else none
  | none => none

/-- Result of the time-normalization step: the time to persist, and whether
the parse failed so that the current time was substituted (in the source
this is the branch that logs the warning). -/
structure NormalizeResult where
  time : ZonedTime
  usedFallback : Bool
  deriving DecidableEq

/-- Embeds the timestamp-normalization step of `saveToUnifiedDB`: parse the
raw timestamp in the fixed layout and zone; on error log and substitute the
current time `now`. -/
def normalizeTimestamp (now : ZonedTime) (s : String) : NormalizeResult :=
  match parseInLocationNY s with
  | some t => ⟨t, false⟩
  | none => ⟨now, true⟩

/-- An HTTP request as issued by the enricher: URL, the `User-Agent` header
set on it, and the timeout (in seconds) of the `http.Client` it is sent
through. -/
structure HttpReq where
  url : String
  userAgent : String
  timeoutSeconds : Nat
  deriving DecidableEq

/-- Outcome of reading a response body (`io.ReadAll`). -/
inductive BodyRead where
  | readFailure
  | ok (body : String)
  deriving DecidableEq

/-- Outcome of one `client.Do` call: a transport error, or a response with
an HTTP status code and a body-read outcome. -/
inductive FetchOutcome where
  | transportError
  | response (status : Nat) (rd : BodyRead)
  deriving DecidableEq

/-- The distinct failure cases of `getWeatherForIncident`, one per `return
nil, err` site in the source. -/
inductive WeatherErr where
  | pointsTransport
  | pointsStatus (status : Nat)
  | pointsRead
  | pointsUnmarshal
  | noForecastURL
  | hourlyTransport
  | hourlyStatus (status : Nat)
  | hourlyRead
  | hourlyUnmarshal
  | noPeriods
  deriving DecidableEq

/-- The abstract outside world of the enricher: what a GET of each URL
returns, the behaviour of `json.Unmarshal` into the two NWS response
shapes (external library code, so abstract; `none` models an unmarshal
error), and the behaviour of `fmt.Sprintf` with verb `%.4f` (external
library code rendering a float rounded to 4 decimal places). -/
structure WeatherEnv where
  fetch : String → FetchOutcome
  unmarshalPoints : String → Option NWSPointsResponse
  unmarshalHourly : String → Option NWSHourlyResponse
  fmt4 : Float → String

/-- The `User-Agent` header value set on both NWS requests. -/
def nwsUserAgent : String := "(patrolx, mtickle@gmail.com)"

/-- The `http.Client` timeout, `10 * time.Second`, shared by both calls. -/
def clientTimeoutSeconds : Nat := 10

/-- Base of the NWS points URL built by `fmt.Sprintf`. -/
def pointsBaseURL : String := "https://api.weather.gov/points/"

/-- The points URL for a coordinate pair:
`fmt.Sprintf("https://api.weather.gov/points/%.4f,%.4f", lat, lon)`. -/
def pointsURLFor (env : WeatherEnv) (lat lon : Float) : String :=
  pointsBaseURL ++ env.fmt4 lat ++ "," ++ env.fmt4 lon

/-- Outcome of step 1 of `getWeatherForIncident` for a GET of `url`:
transport error, non-200 status, body-read failure, unmarshal failure,
empty `forecastHourly` field, or the forecast URL. -/
def pointsOutcome (env : WeatherEnv) (url : String) : Except WeatherErr String :=
  match env.fetch url with
  | .transportError => .error .pointsTransport
  | .response status rd =>
    if status = 200 then
      match rd with
      | .readFailure => .error .pointsRead
      | .ok body =>
        match env.unmarshalPoints body with
        | none => .error .pointsUnmarshal
        | some resp =>
          if resp.properties.forecastHourly = "" then .error .noForecastURL
          else .ok resp.properties.forecastHourly
    else .error (.pointsStatus status)

/-- The request issued by step 1 of `getWeatherForIncident`: the points URL
for the coordinates, the NWS `User-Agent` header, sent through the client
with the fixed timeout. -/
def pointsRequest (env : WeatherEnv) (lat lon : Float) : HttpReq :=
  ⟨pointsURLFor env lat lon, nwsUserAgent, clientTimeoutSeconds⟩

/-- Outcome of step 2 of `getWeatherForIncident` for a GET of `url` (the
forecast URL with `?units=us` already appended): transport error, non-200
status, body-read failure, unmarshal failure, empty period list, or the
first forecast period. -/
def hourlyOutcome (env : WeatherEnv) (url : String) : Except WeatherErr WeatherData :=
  match env.fetch url with
  | .transportError => .error .hourlyTransport
  | .response status rd =>
    if status = 200 then
      match rd with
      | .readFailure => .error .hourlyRead
      | .ok body =>
        match env.unmarshalHourly body with
        | none => .error .hourlyUnmarshal
        | some resp =>
          match resp.properties.periods with
          | [] => .error .noPeriods
          | p :: _ => .ok p
    else .error (.hourlyStatus status)

/-- The request issued by step 2 of `getWeatherForIncident` for a resolved
forecast URL: `?units=us` appended, the NWS `User-Agent` header, sent
through the client with the fixed timeout. -/
def hourlyRequest (forecastURL : String) : HttpReq :=
  ⟨forecastURL ++ "?units=us", nwsUserAgent, clientTimeoutSeconds⟩

/-- Embeds `getWeatherForIncident`: the two sequential NWS calls, stopping
at the first failure. The second component is the trace of HTTP requests
actually issued, in order. -/
def getWeatherForIncident (env : WeatherEnv) (lat lon : Float) :
    Except WeatherErr WeatherData × List HttpReq :=
  match pointsOutcome env (pointsURLFor env lat lon) with
  | .error e => (.error e, [pointsRequest env lat lon])
  | .ok forecastURL =>
    (hourlyOutcome env (forecastURL ++ "?units=us"),
      [pointsRequest env lat lon, hourlyRequest forecastURL])

/-- The `details` payload marshalled into the `details` column: the raw
incident plus the weather snapshot (`none` models the JSON `null` written
for a nil `*WeatherData`). -/
structure Details where
  raw_incident : Incident
  weather : Option WeatherData

/-- A row of the `unified_incidents` table. -/
structure Row where
  source : String
  source_id : String
  event_type : String
  status : String
  address : String
  latitude : Float
  longitude : Float
  timestamp : ZonedTime
  details : Details
  jurisdiction : String
  problem_detail : String
  weather_temp : Option Int
  weather_wind_speed : Option String
  weather_forecast : Option String

/-- The thirteen bind parameters `$1`..`$13` passed to `db.Exec` by
`saveToUnifiedDB` (the `status` column is not a parameter: the SQL supplies
the literal `'active'`). -/
structure InsertValues where
  source : String
  source_id : String
  event_type : String
  address : String
  latitude : Float
  longitude : Float
  timestamp : ZonedTime
  details : Details
  jurisdiction : String
  problem_detail : String
  weather_temp : Option Int
  weather_wind_speed : Option String
  weather_forecast : Option String

/-- The `source` tag constant of this ingestor. -/
def sourceTag : String := "RWECC"

/-- The constant `event_type` classification. -/
def eventTypeVC : String := "Vehicle Crash"

/-- `sourceID := incident.Timestamp + " " + incident.Address`. -/
def mkSourceId (inc : Incident) : String :=
  inc.timestamp ++ " " ++ inc.address

/-- Go's conversion `int32(n)`: two's-complement truncation to 32 bits. -/
def int32ofInt (n : Int) : Int :=
  (n + 2 ^ 31) % 2 ^ 32 - 2 ^ 31

/-- The record-merging step of `saveToUnifiedDB`: assemble the thirteen
`db.Exec` parameters from the incident, the (possibly absent) weather
snapshot and the normalized time. An absent snapshot leaves all three
weather scalar columns null (`sql.NullInt32`/`sql.NullString` with
`Valid = false`). -/
def mkValues (inc : Incident) (w : Option WeatherData) (parsedTime : ZonedTime) :
    InsertValues where
  source := sourceTag
  source_id := mkSourceId inc
  event_type := eventTypeVC
  address := inc.address
  latitude := inc.lat
  longitude := inc.long
  timestamp := parsedTime
  details := { raw_incident := inc, weather := w }
  jurisdiction := inc.jurisdiction
  problem_detail := inc.problem
  weather_temp := w.map (fun d => int32ofInt d.temperature)
  weather_wind_speed := w.map WeatherData.windSpeed
  weather_forecast := w.map WeatherData.shortForecast

/-- Does a row carry the given composite key? -/
def keyMatches (src sid : String) (r : Row) : Bool :=
  r.source == src && r.source_id == sid

/-- Does the table contain a row with the given composite key? -/
def hasKey (t : List Row) (src sid : String) : Bool :=
  t.any (keyMatches src sid)

/-- Number of rows of the table carrying the given composite key. -/
def countKey (t : List Row) (src sid : String) : Nat :=
  (t.filter (keyMatches src sid)).length

/-- First row of the table carrying the given composite key, if any. -/
def findKey (t : List Row) (src sid : String) : Option Row :=
  t.find? (keyMatches src sid)

/-- The `VALUES` clause of the insert: all thirteen parameters plus the
literal `status = 'active'`. -/
def insertRow (v : InsertValues) : Row where
  source := v.source
  source_id := v.source_id
  event_type := v.event_type
  status := "active"
  address := v.address
  latitude := v.latitude
  longitude := v.longitude
  timestamp := v.timestamp
  details := v.details
  jurisdiction := v.jurisdiction
  problem_detail := v.problem_detail
  weather_temp := v.weather_temp
  weather_wind_speed := v.weather_wind_speed
  weather_forecast := v.weather_forecast

/-- The `ON CONFLICT (source, source_id) DO UPDATE SET` clause: overwrite
`details`, force `status = 'active'`, and overwrite `jurisdiction`,
`problem_detail` and the three weather columns with the excluded (incoming)
values; every other column of the existing row is left untouched. -/
def applyConflictUpdate (old : Row) (v : InsertValues) : Row :=
  { old with
    details := v.details
    status := "active"
    jurisdiction := v.jurisdiction
    problem_detail := v.problem_detail
    weather_temp := v.weather_temp
    weather_wind_speed := v.weather_wind_speed
    weather_forecast := v.weather_forecast }

/-- The conflict-aware insert of `saveToUnifiedDB` against the table: if a
row with the incoming key exists, apply the `DO UPDATE SET` clause to it;
otherwise append the freshly inserted row. -/
def upsert (t : List Row) (v : InsertValues) : List Row :=
  if hasKey t v.source v.source_id then
    t.map (fun old =>
      if keyMatches v.source v.source_id old then applyConflictUpdate old v else old)
  else
    t ++ [insertRow v]

/-- The `weatherData` local of `saveToUnifiedDB` after the enrichment step:
the Go pointer is nil exactly when `getWeatherForIncident` returned an
error (the error is logged and processing continues). -/
def weatherOptionOf : Except WeatherErr WeatherData → Option WeatherData
  | .ok d => some d
  | .error _ => none

/-- The thirteen `db.Exec` parameters `saveToUnifiedDB` assembles for an
incident: the raw fields, the normalized timestamp, and the (possibly
absent) weather snapshot. -/
def mergedValues (env : WeatherEnv) (now : ZonedTime) (inc : Incident) : InsertValues :=
  mkValues inc (weatherOptionOf (getWeatherForIncident env inc.lat inc.long).1)
    ((normalizeTimestamp now inc.timestamp).time)

/-- Embeds `saveToUnifiedDB`: normalize the timestamp, attempt the weather
lookup (a failure is logged and leaves a nil snapshot), merge, and execute
the upsert. `execOk` models whether `db.Exec` succeeds for this incident;
on a failed statement the table is unchanged and the error is returned
(`none`). `now` models `time.Now()`. -/
def saveToUnifiedDB (env : WeatherEnv) (execOk : Incident → Bool) (now : ZonedTime)
    (t : List Row) (inc : Incident) : Option (List Row) :=
  if execOk inc then some (upsert t (mergedValues env now inc)) else none

/-- Does `p` occur at the head of `l`? (character-list helper for the
substring test). -/
def listStartsWith : List Char → List Char → Bool
  | [], _ => true
  | _ :: _, [] => false
  | a :: as, b :: bs => a == b && listStartsWith as bs

/-- Does `p` occur anywhere in `l`? -/
def listHasSub (p : List Char) : List Char → Bool
  | [] => listStartsWith p []
  | a :: t => listStartsWith p (a :: t) || listHasSub p t

/-- Models Go's `strings.Contains(s, sub)`. -/
def strContains (s sub : String) : Bool :=
  listHasSub sub.data s.data

/-- The filter marker substring of the main loop. -/
def mvcMarker : String := "MVC"

/-- Result of one run of the main loop over a fetched batch. -/
structure RunResult where
  table : List Row
  saved : Nat
  written : List Incident

/-- Embeds the per-incident loop of `main`: each incident whose problem
text contains `"MVC"` is passed to `saveToUnifiedDB`; a write error is
logged and the loop continues; a success increments `incidentsSaved`.
`written` records, in order, the incidents actually passed to the writer. -/
def runBatch (env : WeatherEnv) (execOk : Incident → Bool) (now : ZonedTime)
    (t : List Row) : List Incident → RunResult
  | [] => ⟨t, 0, []⟩
  | inc :: rest =>
    if strContains inc.problem mvcMarker then
      match saveToUnifiedDB env execOk now t inc with
      | some t2 =>
        let r := runBatch env execOk now t2 rest
        ⟨r.table, r.saved + 1, inc :: r.written⟩
      | none =>
        let r := runBatch env execOk now t rest
        ⟨r.table, r.saved, inc :: r.written⟩
    else
      runBatch env execOk now t rest

/-- A sample weather snapshot used in concrete instantiations. -/
def wdEx : WeatherData := ⟨72, "5 to 10 mph", "Sunny", "icon-url"⟩

/-- A sample processing instant used in concrete instantiations. -/
def nowEx : ZonedTime := ⟨⟨2025, 1, 2, 3, 4, 5, 6⟩, newYorkZone⟩

/-- A sample incident used in concrete instantiations. -/
def incEx : Incident :=
  ⟨"Wake County", "MVC", "100 Main St", 35.5, -78.5, "2024-03-01 14:30:00.000"⟩

/-- An environment in which every remote call fails at transport level. -/
def wenvFail : WeatherEnv :=
  ⟨fun _ => .transportError, fun _ => none, fun _ => none, fun _ => "0.0000"⟩

theorem keyMatches_applyConflictUpdate (src sid : String) (old : Row) (v : InsertValues) :
    keyMatches src sid (applyConflictUpdate old v) = keyMatches src sid old := rfl

theorem countKey_mapUpdate (t : List Row) (v : InsertValues) (src sid : String) :
    countKey (t.map (fun old =>
        if keyMatches v.source v.source_id old then applyConflictUpdate old v else old))
      src sid = countKey t src sid := by
  unfold countKey
  rw [List.filter_map, List.length_map]
  congr 1
  apply List.filter_congr
  intro old _
  by_cases hk : keyMatches v.source v.source_id old = true
  · simp [hk, keyMatches_applyConflictUpdate]
  · simp [hk]

theorem countKey_append_single (t : List Row) (r : Row) (src sid : String) :
    countKey (t ++ [r]) src sid
      = countKey t src sid + (if keyMatches src sid r then 1 else 0) := by
  unfold countKey
  rw [List.filter_append, List.length_append]
  congr 1
  by_cases h : keyMatches src sid r = true
  · simp [h, List.filter]
  · simp [h, List.filter]

theorem hasKey_iff_countKey_pos (t : List Row) (src sid : String) :
    hasKey t src sid = true ↔ 0 < countKey t src sid := by
  unfold hasKey countKey
  rw [← List.countP_eq_length_filter, List.any_eq_true, List.countP_pos_iff]

theorem findKey_mapUpdate (t : List Row) (v : InsertValues) :
    findKey (t.map (fun old =>
        if keyMatches v.source v.source_id old then applyConflictUpdate old v else old))
      v.source v.source_id
      = (findKey t v.source v.source_id).map (fun old => applyConflictUpdate old v) := by
  induction t with
  | nil => rfl
  | cons h tl ih =>
    cases hk : keyMatches v.source v.source_id h with
    | true =>
      unfold findKey
      simp only [List.map_cons, hk, if_pos]
      rw [List.find?_cons_of_pos _ (by rw [keyMatches_applyConflictUpdate]; exact hk),
        List.find?_cons_of_pos _ hk]
      rfl
    | false =>
      unfold findKey
      simp only [List.map_cons, hk, Bool.false_eq_true, if_neg, not_false_eq_true]
      rw [List.find?_cons_of_neg _ (by simp [hk]), List.find?_cons_of_neg _ (by simp [hk])]
      exact ih

theorem hasKey_of_findKey_some (t : List Row) (src sid : String) (row : Row)
    (h : findKey t src sid = some row) : hasKey t src sid = true := by
  unfold findKey at h
  unfold hasKey
  exact List.any_eq_true.mpr ⟨row, List.mem_of_find?_eq_some h, List.find?_some h⟩

theorem findKey_isSome_of_hasKey (t : List Row) (src sid : String)
    (h : hasKey t src sid = true) : (findKey t src sid).isSome = true := by
  unfold hasKey at h
  unfold findKey
  exact List.find?_isSome.mpr (List.any_eq_true.mp h)

theorem keyMatches_insertRow (v : InsertValues) :
    keyMatches v.source v.source_id (insertRow v) = true := by
  simp [keyMatches, insertRow]

theorem upsert_countKey_self (t : List Row) (v : InsertValues) :
    countKey (upsert t v) v.source v.source_id
      = if hasKey t v.source v.source_id then countKey t v.source v.source_id
        else countKey t v.source v.source_id + 1 := by
  unfold upsert
  by_cases h : hasKey t v.source v.source_id = true
  · rw [if_pos h, if_pos h, countKey_mapUpdate]
  · rw [if_neg h, if_neg h, countKey_append_single, if_pos (keyMatches_insertRow v)]

theorem upsert_findKey_of_hasKey (t : List Row) (v : InsertValues)
    (h : hasKey t v.source v.source_id = true) :
    findKey (upsert t v) v.source v.source_id
      = (findKey t v.source v.source_id).map (fun old => applyConflictUpdate old v) := by
  unfold upsert
  rw [if_pos h]
  exact findKey_mapUpdate t v

theorem countKey_zero_of_not_hasKey (t : List Row) (src sid : String)
    (h : ¬ hasKey t src sid = true) : countKey t src sid = 0 := by
  by_contra hne
  exact h ((hasKey_iff_countKey_pos t src sid).mpr (Nat.pos_of_ne_zero hne))

theorem upsert_countKey_of_hasKey (t : List Row) (v : InsertValues)
    (h : hasKey t v.source v.source_id = true) :
    countKey (upsert t v) v.source v.source_id = countKey t v.source v.source_id := by
  rw [upsert_countKey_self, if_pos h]

theorem upsert_countKey_of_not_hasKey (t : List Row) (v : InsertValues)
    (h : ¬ hasKey t v.source v.source_id = true) :
    countKey (upsert t v) v.source v.source_id = countKey t v.source v.source_id + 1 := by
  rw [upsert_countKey_self, if_neg h]

/-- C1: submitting an incident to the upsert writer twice with identical raw
timestamp string and address string results in exactly one row under the
composite key (source = "RWECC", source_id = timestamp ++ " " ++ address);
the second submission updates the existing row's status, details and scalar
columns and never creates a second row with that key. -/
theorem upsert_twice_single_row (t : List Row) (i1 i2 : Incident)
    (w1 w2 : Option WeatherData) (p1 p2 : ZonedTime)
    (hts : i1.timestamp = i2.timestamp) (had : i1.address = i2.address)
    (huniq : countKey t sourceTag (mkSourceId i2) ≤ 1) :
    countKey (upsert (upsert t (mkValues i1 w1 p1)) (mkValues i2 w2 p2))
        sourceTag (mkSourceId i2) = 1 ∧
    (∃ row, findKey (upsert (upsert t (mkValues i1 w1 p1)) (mkValues i2 w2 p2))
        sourceTag (mkSourceId i2) = some row) ∧
    (∀ row, findKey (upsert (upsert t (mkValues i1 w1 p1)) (mkValues i2 w2 p2))
        sourceTag (mkSourceId i2) = some row →
      row.status = "active" ∧
      row.details = ⟨i2, w2⟩ ∧
      row.jurisdiction = i2.jurisdiction ∧
      row.problem_detail = i2.problem ∧
      row.weather_temp = w2.map (fun d => int32ofInt d.temperature) ∧
      row.weather_wind_speed = w2.map WeatherData.windSpeed ∧
      row.weather_forecast = w2.map WeatherData.shortForecast) := by
  have hid : mkSourceId i1 = mkSourceId i2 := by unfold mkSourceId; rw [hts, had]
  have hv1src : (mkValues i1 w1 p1).source = sourceTag := rfl
  have hv1sid : (mkValues i1 w1 p1).source_id = mkSourceId i1 := rfl
  have hv2src : (mkValues i2 w2 p2).source = sourceTag := rfl
  have hv2sid : (mkValues i2 w2 p2).source_id = mkSourceId i2 := rfl
  have hc1 : countKey (upsert t (mkValues i1 w1 p1)) sourceTag (mkSourceId i2) = 1 := by
    by_cases hk : hasKey t sourceTag (mkSourceId i2) = true
    · have := upsert_countKey_of_hasKey t (mkValues i1 w1 p1)
        (by rw [hv1src, hv1sid, hid]; exact hk)
      rw [hv1src, hv1sid, hid] at this
      have hpos := (hasKey_iff_countKey_pos t sourceTag (mkSourceId i2)).mp hk
      omega
    · have := upsert_countKey_of_not_hasKey t (mkValues i1 w1 p1)
        (by rw [hv1src, hv1sid, hid]; exact hk)
      rw [hv1src, hv1sid, hid] at this
      rw [this, countKey_zero_of_not_hasKey t _ _ hk]
  have hk1 : hasKey (upsert t (mkValues i1 w1 p1)) sourceTag (mkSourceId i2) = true :=
    (hasKey_iff_countKey_pos _ _ _).mpr (by rw [hc1]; exact Nat.one_pos)
  have hc2 : countKey (upsert (upsert t (mkValues i1 w1 p1)) (mkValues i2 w2 p2))
      sourceTag (mkSourceId i2) = 1 := by
    have := upsert_countKey_of_hasKey (upsert t (mkValues i1 w1 p1)) (mkValues i2 w2 p2)
      (by rw [hv2src, hv2sid]; exact hk1)
    rw [hv2src, hv2sid] at this
    rw [this, hc1]
  have hf2 : findKey (upsert (upsert t (mkValues i1 w1 p1)) (mkValues i2 w2 p2))
      sourceTag (mkSourceId i2)
      = (findKey (upsert t (mkValues i1 w1 p1)) sourceTag (mkSourceId i2)).map
          (fun old => applyConflictUpdate old (mkValues i2 w2 p2)) := by
    have := upsert_findKey_of_hasKey (upsert t (mkValues i1 w1 p1)) (mkValues i2 w2 p2)
      (by rw [hv2src, hv2sid]; exact hk1)
    rw [hv2src, hv2sid] at this
    exact this
  refine ⟨hc2, ?_, ?_⟩
  · have hsome := findKey_isSome_of_hasKey _ sourceTag (mkSourceId i2)
      ((hasKey_iff_countKey_pos _ _ _).mpr (by rw [hc2]; exact Nat.one_pos))
    obtain ⟨row, hrow⟩ := Option.isSome_iff_exists.mp hsome
    exact ⟨row, hrow⟩
  · intro row hrow
    rw [hf2] at hrow
    obtain ⟨old, _, hrow2⟩ := Option.map_eq_some'.mp hrow
    rw [← hrow2]
    exact ⟨rfl, rfl, rfl, rfl, rfl, rfl, rfl⟩

/-- A second sample incident sharing `incEx`'s timestamp and address. -/
def incEx2 : Incident :=
  ⟨"Wake County", "MVC PD", "100 Main St", 35.5, -78.5, "2024-03-01 14:30:00.000"⟩

/-- Concrete instantiation of `upsert_twice_single_row`: starting from the
empty table, re-submitting the same timestamp and address yields one row
holding the second submission's values. -/
theorem upsert_twice_single_row_witness :
    countKey (upsert (upsert [] (mkValues incEx none nowEx)) (mkValues incEx2 (some wdEx) nowEx))
        sourceTag (mkSourceId incEx2) = 1 ∧
    (∃ row, findKey (upsert (upsert [] (mkValues incEx none nowEx)) (mkValues incEx2 (some wdEx) nowEx))
        sourceTag (mkSourceId incEx2) = some row) ∧
    (∀ row, findKey (upsert (upsert [] (mkValues incEx none nowEx)) (mkValues incEx2 (some wdEx) nowEx))
        sourceTag (mkSourceId incEx2) = some row →
      row.status = "active" ∧
      row.details = ⟨incEx2, some wdEx⟩ ∧
      row.jurisdiction = incEx2.jurisdiction ∧
      row.problem_detail = incEx2.problem ∧
      row.weather_temp = (some wdEx).map (fun d => int32ofInt d.temperature) ∧
      row.weather_wind_speed = (some wdEx).map WeatherData.windSpeed ∧
      row.weather_forecast = (some wdEx).map WeatherData.shortForecast) :=
  upsert_twice_single_row [] incEx incEx2 none (some wdEx) nowEx nowEx rfl rfl (by decide)

/-- C2: when a row with the incoming (source, source_id) key already exists,
the upsert updates exactly the columns details, status, jurisdiction,
problem_detail, weather_temp, weather_wind_speed and weather_forecast;
address, latitude, longitude, timestamp and event_type keep the values from
the original insert. -/
theorem upsert_conflict_column_scope (t : List Row) (v : InsertValues) (old : Row)
    (hfind : findKey t v.source v.source_id = some old) :
    ∃ row, findKey (upsert t v) v.source v.source_id = some row ∧
      row.details = v.details ∧
      row.status = "active" ∧
      row.jurisdiction = v.jurisdiction ∧
      row.problem_detail = v.problem_detail ∧
      row.weather_temp = v.weather_temp ∧
      row.weather_wind_speed = v.weather_wind_speed ∧
      row.weather_forecast = v.weather_forecast ∧
      row.address = old.address ∧
      row.latitude = old.latitude ∧
      row.longitude = old.longitude ∧
      row.timestamp = old.timestamp ∧
      row.event_type = old.event_type ∧
      row.source = old.source ∧
      row.source_id = old.source_id := by
  have hk := hasKey_of_findKey_some t v.source v.source_id old hfind
  refine ⟨applyConflictUpdate old v, ?_,
    rfl, rfl, rfl, rfl, rfl, rfl, rfl, rfl, rfl, rfl, rfl, rfl, rfl, rfl⟩
  rw [upsert_findKey_of_hasKey t v hk, hfind]
  rfl

/-- A pre-existing sample row under `incEx`'s key, with different mutable
columns than a re-ingestion would bring. -/
def oldRowEx : Row :=
  { source := sourceTag
    source_id := mkSourceId incEx
    event_type := eventTypeVC
    status := "active"
    address := "100 Main St"
    latitude := 35.5
    longitude := -78.5
    timestamp := nowEx
    details := ⟨incEx, none⟩
    jurisdiction := "Wake County"
    problem_detail := "MVC"
    weather_temp := none
    weather_wind_speed := none
    weather_forecast := none }

/-- Concrete instantiation of `upsert_conflict_column_scope`: re-ingesting
`incEx2` with a weather snapshot over the table `[oldRowEx]`. -/
theorem upsert_conflict_column_scope_witness :
    ∃ row, findKey (upsert [oldRowEx] (mkValues incEx2 (some wdEx) nowEx))
        (mkValues incEx2 (some wdEx) nowEx).source
        (mkValues incEx2 (some wdEx) nowEx).source_id = some row ∧
      row.details = (mkValues incEx2 (some wdEx) nowEx).details ∧
      row.status = "active" ∧
      row.jurisdiction = (mkValues incEx2 (some wdEx) nowEx).jurisdiction ∧
      row.problem_detail = (mkValues incEx2 (some wdEx) nowEx).problem_detail ∧
      row.weather_temp = (mkValues incEx2 (some wdEx) nowEx).weather_temp ∧
      row.weather_wind_speed = (mkValues incEx2 (some wdEx) nowEx).weather_wind_speed ∧
      row.weather_forecast = (mkValues incEx2 (some wdEx) nowEx).weather_forecast ∧
      row.address = oldRowEx.address ∧
      row.latitude = oldRowEx.latitude ∧
      row.longitude = oldRowEx.longitude ∧
      row.timestamp = oldRowEx.timestamp ∧
      row.event_type = oldRowEx.event_type ∧
      row.source = oldRowEx.source ∧
      row.source_id = oldRowEx.source_id :=
  upsert_conflict_column_scope [oldRowEx] (mkValues incEx2 (some wdEx) nowEx) oldRowEx rfl

/-- C3: after every write — insert of a fresh key or update of an existing
one — every row carrying the written key has status "active", and no row's
status is ever set to any other value (a row either ends up "active" or is
left exactly as it was in the table before the write). -/
theorem upsert_status_always_active (t : List Row) (v : InsertValues) (row : Row)
    (hmem : row ∈ upsert t v) :
    (row.source = v.source ∧ row.source_id = v.source_id → row.status = "active") ∧
    (row.status = "active" ∨ row ∈ t) := by
  unfold upsert at hmem
  by_cases h : hasKey t v.source v.source_id = true
  · rw [if_pos h] at hmem
    obtain ⟨old, hold, heq⟩ := List.mem_map.mp hmem
    cases hkm : keyMatches v.source v.source_id old with
    | true =>
      rw [hkm, if_pos rfl] at heq
      constructor
      · intro _
        rw [← heq]
        rfl
      · left
        rw [← heq]
        rfl
    | false =>
      rw [hkm] at heq
      simp only [Bool.false_eq_true, if_neg, not_false_eq_true] at heq
      constructor
      · intro ⟨hs, hi⟩
        exfalso
        rw [← heq] at hs hi
        rw [keyMatches, hs, hi] at hkm
        simp at hkm
      · right
        rw [← heq]
        exact hold
  · rw [if_neg h] at hmem
    rcases List.mem_append.mp hmem with hin | hsing
    · constructor
      · intro ⟨hs, hi⟩
        exfalso
        exact h (List.any_eq_true.mpr ⟨row, hin, by rw [keyMatches, hs, hi]; simp⟩)
      · right
        exact hin
    · have hr : row = insertRow v := List.mem_singleton.mp hsing
      exact ⟨fun _ => by rw [hr]; rfl, Or.inl (by rw [hr]; rfl)⟩

/-- Concrete instantiation of `upsert_status_always_active`: the row written
by a fresh insert into the empty table has status "active". -/
theorem upsert_status_always_active_witness :
    ((insertRow (mkValues incEx none nowEx)).source = (mkValues incEx none nowEx).source ∧
      (insertRow (mkValues incEx none nowEx)).source_id = (mkValues incEx none nowEx).source_id →
      (insertRow (mkValues incEx none nowEx)).status = "active") ∧
    ((insertRow (mkValues incEx none nowEx)).status = "active" ∨
      insertRow (mkValues incEx none nowEx) ∈ ([] : List Row)) :=
  upsert_status_always_active [] (mkValues incEx none nowEx) (insertRow (mkValues incEx none nowEx))
    (by rw [upsert, if_neg (by rw [hasKey]; simp)]; exact List.mem_singleton.mpr rfl)

/-- C4: when the weather lookup fails (any of its failure cases) the
incident is still merged and written, with the payload's weather field an
explicit absent marker and all three weather scalar columns null; when the
lookup succeeds all three are populated from the snapshot — the scalars are
always all-null or all-populated together. -/
theorem weather_absence_handling (env : WeatherEnv) (execOk : Incident → Bool)
    (now : ZonedTime) (t : List Row) (inc : Incident) :
    (∀ e, (getWeatherForIncident env inc.lat inc.long).1 = .error e →
      (mergedValues env now inc).weather_temp = none ∧
      (mergedValues env now inc).weather_wind_speed = none ∧
      (mergedValues env now inc).weather_forecast = none ∧
      (mergedValues env now inc).details.weather = none) ∧
    (∀ d, (getWeatherForIncident env inc.lat inc.long).1 = .ok d →
      (mergedValues env now inc).weather_temp = some (int32ofInt d.temperature) ∧
      (mergedValues env now inc).weather_wind_speed = some d.windSpeed ∧
      (mergedValues env now inc).weather_forecast = some d.shortForecast ∧
      (mergedValues env now inc).details.weather = some d) ∧
    (((mergedValues env now inc).weather_temp.isSome = true ∧
      (mergedValues env now inc).weather_wind_speed.isSome = true ∧
      (mergedValues env now inc).weather_forecast.isSome = true) ∨
     ((mergedValues env now inc).weather_temp = none ∧
      (mergedValues env now inc).weather_wind_speed = none ∧
      (mergedValues env now inc).weather_forecast = none)) ∧
    (execOk inc = true →
      saveToUnifiedDB env execOk now t inc
        = some (upsert t (mergedValues env now inc))) := by
  refine ⟨?_, ?_, ?_, ?_⟩
  · intro e he
    unfold mergedValues
    rw [he]
    exact ⟨rfl, rfl, rfl, rfl⟩
  · intro d hd
    unfold mergedValues
    rw [hd]
    exact ⟨rfl, rfl, rfl, rfl⟩
  · cases hw : (getWeatherForIncident env inc.lat inc.long).1 with
    | ok d =>
      left
      unfold mergedValues
      rw [hw]
      exact ⟨rfl, rfl, rfl⟩
    | error e =>
      right
      unfold mergedValues
      rw [hw]
      exact ⟨rfl, rfl, rfl⟩
  · intro hex
    unfold saveToUnifiedDB
    rw [if_pos hex]

/-- Concrete instantiation of `weather_absence_handling`: under an
environment whose remote calls fail at transport level, the merged record
has all weather columns null and is still written. -/
theorem weather_absence_handling_witness :
    (mergedValues wenvFail nowEx incEx).weather_temp = none ∧
    (mergedValues wenvFail nowEx incEx).weather_wind_speed = none ∧
    (mergedValues wenvFail nowEx incEx).weather_forecast = none ∧
    (mergedValues wenvFail nowEx incEx).details.weather = none ∧
    saveToUnifiedDB wenvFail (fun _ => true) nowEx [] incEx
      = some (upsert [] (mergedValues wenvFail nowEx incEx)) := by
  have h := weather_absence_handling wenvFail (fun _ => true) nowEx [] incEx
  have ha := h.1 WeatherErr.pointsTransport rfl
  exact ⟨ha.1, ha.2.1, ha.2.2.1, ha.2.2.2, h.2.2.2 rfl⟩

theorem runBatch_written_eq_filter (env : WeatherEnv) (execOk : Incident → Bool)
    (now : ZonedTime) :
    ∀ (incs : List Incident) (t : List Row),
      (runBatch env execOk now t incs).written
        = incs.filter (fun i => strContains i.problem mvcMarker) := by
  intro incs
  induction incs with
  | nil => intro t; rfl
  | cons inc rest ih =>
    intro t
    by_cases hp : strContains inc.problem mvcMarker = true
    · rw [List.filter_cons, if_pos hp]
      unfold runBatch
      rw [if_pos hp]
      cases hsave : saveToUnifiedDB env execOk now t inc with
      | some t2 => simp only []; rw [ih t2]
      | none => simp only []; rw [ih t]
    · rw [List.filter_cons, if_neg hp]
      unfold runBatch
      rw [if_neg hp]
      exact ih t

theorem saveToUnifiedDB_some_execOk (env : WeatherEnv) (execOk : Incident → Bool)
    (now : ZonedTime) (t t2 : List Row) (inc : Incident)
    (h : saveToUnifiedDB env execOk now t inc = some t2) : execOk inc = true := by
  unfold saveToUnifiedDB at h
  by_cases hex : execOk inc = true
  · exact hex
  · rw [if_neg hex] at h
    exact absurd h (by simp)

theorem saveToUnifiedDB_none_not_execOk (env : WeatherEnv) (execOk : Incident → Bool)
    (now : ZonedTime) (t : List Row) (inc : Incident)
    (h : saveToUnifiedDB env execOk now t inc = none) : execOk inc = false := by
  unfold saveToUnifiedDB at h
  by_cases hex : execOk inc = true
  · rw [if_pos hex] at h
    exact absurd h (by simp)
  · exact Bool.not_eq_true _ ▸ hex

theorem runBatch_saved_eq_filter (env : WeatherEnv) (execOk : Incident → Bool)
    (now : ZonedTime) :
    ∀ (incs : List Incident) (t : List Row),
      (runBatch env execOk now t incs).saved
        = (((incs.filter (fun i => strContains i.problem mvcMarker)).filter
            (fun i => execOk i)).length) := by
  intro incs
  induction incs with
  | nil => intro t; rfl
  | cons inc rest ih =>
    intro t
    by_cases hp : strContains inc.problem mvcMarker = true
    · rw [List.filter_cons, if_pos hp]
      unfold runBatch
      rw [if_pos hp]
      cases hsave : saveToUnifiedDB env execOk now t inc with
      | some t2 =>
        have hex := saveToUnifiedDB_some_execOk env execOk now t t2 inc hsave
        rw [List.filter_cons, if_pos hex]
        simp only [List.length_cons]
        rw [ih t2]
      | none =>
        have hex := saveToUnifiedDB_none_not_execOk env execOk now t inc hsave
        rw [List.filter_cons, if_neg (by rw [hex]; simp)]
        simp only []
        rw [ih t]
    · rw [List.filter_cons, if_neg hp]
      unfold runBatch
      rw [if_neg hp]
      exact ih t

theorem length_filter_add_length_filter_not {α : Type} (l : List α) (p : α → Bool) :
    (l.filter p).length + (l.filter (fun a => !(p a))).length = l.length := by
  induction l with
  | nil => rfl
  | cons a tl ih =>
    cases hp : p a with
    | true =>
      rw [List.filter_cons_of_pos hp, List.filter_cons_of_neg (by rw [hp]; simp)]
      simp only [List.length_cons]
      omega
    | false =>
      rw [List.filter_cons_of_neg (by rw [hp]; simp), List.filter_cons_of_pos (by rw [hp]; simp)]
      simp only [List.length_cons]
      omega

/-- C5: in every batch, exactly the incidents whose problem text contains
the substring "MVC" are passed to the upsert writer, in order; all others
are skipped and never reach saveToUnifiedDB. -/
theorem filter_mvc_correctness (env : WeatherEnv) (execOk : Incident → Bool)
    (now : ZonedTime) (t : List Row) (incs : List Incident) :
    (runBatch env execOk now t incs).written
      = incs.filter (fun i => strContains i.problem mvcMarker) :=
  runBatch_written_eq_filter env execOk now incs t

/-- C9: a write failure for one incident does not abort the batch — every
filtered incident is still submitted — and the final saved count equals the
number of filtered (MVC-matching) incidents whose write succeeded, i.e. the
number of filtered incidents minus the number of failed writes. -/
theorem partial_failure_isolation (env : WeatherEnv) (execOk : Incident → Bool)
    (now : ZonedTime) (t : List Row) (incs : List Incident) :
    (runBatch env execOk now t incs).written
      = incs.filter (fun i => strContains i.problem mvcMarker) ∧
    (runBatch env execOk now t incs).saved
      = ((incs.filter (fun i => strContains i.problem mvcMarker)).filter
          (fun i => execOk i)).length ∧
    (runBatch env execOk now t incs).saved
      = (incs.filter (fun i => strContains i.problem mvcMarker)).length
        - ((incs.filter (fun i => strContains i.problem mvcMarker)).filter
            (fun i => !(execOk i))).length := by
  refine ⟨runBatch_written_eq_filter env execOk now incs t,
    runBatch_saved_eq_filter env execOk now incs t, ?_⟩
  rw [runBatch_saved_eq_filter env execOk now incs t]
  have h := length_filter_add_length_filter_not
    (incs.filter (fun i => strContains i.problem mvcMarker)) (fun i => execOk i)
  omega

theorem parseInLocationNY_zone (s : String) (zt : ZonedTime)
    (h : parseInLocationNY s = some zt) : zt.zone = newYorkZone := by
  unfold parseInLocationNY at h
  split at h
  · split at h
    · cases h
      rfl
    · exact absurd h (by simp)
  · exact absurd h (by simp)

/-- C6: the time normalizer parses the incident timestamp against the fixed
layout "YYYY-MM-DD HH:MM:SS.fff" as wall-clock civil time in
America/New_York, yielding exactly that instant on success (for example
"2024-03-01 14:30:00.000" yields 14:30:00 civil time on 2024-03-01 in that
zone); on any parse failure the current instant is substituted (and the
warning logged) and processing continues — normalization never aborts. -/
theorem timestamp_normalization :
    (∀ now : ZonedTime, normalizeTimestamp now "2024-03-01 14:30:00.000"
      = ⟨⟨⟨2024, 3, 1, 14, 30, 0, 0⟩, newYorkZone⟩, false⟩) ∧
    (∀ now : ZonedTime, normalizeTimestamp now "not-a-date" = ⟨now, true⟩) ∧
    (∀ (now : ZonedTime) (s : String), parseInLocationNY s = none →
      normalizeTimestamp now s = ⟨now, true⟩) ∧
    (∀ (now : ZonedTime) (s : String) (zt : ZonedTime), parseInLocationNY s = some zt →
      zt.zone = newYorkZone ∧ normalizeTimestamp now s = ⟨zt, false⟩) := by
  refine ⟨fun now => rfl, fun now => rfl, ?_, ?_⟩
  · intro now s h
    unfold normalizeTimestamp
    rw [h]
  · intro now s zt h
    refine ⟨parseInLocationNY_zone s zt h, ?_⟩
    unfold normalizeTimestamp
    rw [h]

/-- Concrete instantiation of `timestamp_normalization`: the sample
well-formed timestamp is parsed to its civil instant in the fixed zone, and
a malformed one falls back to the processing instant. -/
theorem timestamp_normalization_witness :
    normalizeTimestamp nowEx "2024-03-01 14:30:00.000"
      = ⟨⟨⟨2024, 3, 1, 14, 30, 0, 0⟩, newYorkZone⟩, false⟩ ∧
    normalizeTimestamp nowEx "2024-13-01 14:30:00.000" = ⟨nowEx, true⟩ ∧
    normalizeTimestamp nowEx "not-a-date" = ⟨nowEx, true⟩ :=
  ⟨timestamp_normalization.1 nowEx,
    timestamp_normalization.2.2.1 nowEx "2024-13-01 14:30:00.000" (by decide),
    timestamp_normalization.2.1 nowEx⟩

theorem pointsOutcome_ok_iff (env : WeatherEnv) (url u : String) :
    pointsOutcome env url = .ok u ↔
      ∃ body resp, env.fetch url = .response 200 (.ok body) ∧
        env.unmarshalPoints body = some resp ∧
        resp.properties.forecastHourly ≠ "" ∧
        u = resp.properties.forecastHourly := by
  unfold pointsOutcome
  cases hf : env.fetch url with
  | transportError => simp
  | response status rd =>
    dsimp only
    by_cases hs : status = 200
    · subst hs
      rw [if_pos rfl]
      cases rd with
      | readFailure => simp
      | ok body =>
        cases hm : env.unmarshalPoints body with
        | none => simp [hm]
        | some resp =>
          by_cases he : resp.properties.forecastHourly = ""
          · simp [hm, he]
          · simp [hm, he, eq_comm]
            exact fun _ hc => he hc.symm
    · rw [if_neg hs]
      simp [hs]

theorem hourlyOutcome_ok_iff (env : WeatherEnv) (url : String) (d : WeatherData) :
    hourlyOutcome env url = .ok d ↔
      ∃ body hresp rest, env.fetch url = .response 200 (.ok body) ∧
        env.unmarshalHourly body = some hresp ∧
        hresp.properties.periods = d :: rest := by
  unfold hourlyOutcome
  cases hf : env.fetch url with
  | transportError => simp
  | response status rd =>
    dsimp only
    by_cases hs : status = 200
    · subst hs
      rw [if_pos rfl]
      cases rd with
      | readFailure => simp
      | ok body =>
        cases hm : env.unmarshalHourly body with
        | none => simp [hm]
        | some hresp =>
          cases hp : hresp.properties.periods with
          | nil => simp [hm, hp]
          | cons p ps => simp [hm, hp, eq_comm]
    · rw [if_neg hs]
      simp [hs]

/-- C7: for every coordinate pair the enricher issues at most two
sequential calls, the first always a GET of the points URL built from the
formatted coordinates (with the NWS header and client timeout); and it
returns a snapshot exactly when the points call returns status 200 with a
readable body that unmarshals to a non-empty forecastHourly URL and the
subsequent GET of that URL with "?units=us" appended returns status 200
with a readable body that unmarshals to a non-empty period list — the
snapshot being the first period; in every other case it returns a failure
and no snapshot, with no retry. -/
theorem enricher_two_call_protocol (env : WeatherEnv) (lat lon : Float) :
    ((getWeatherForIncident env lat lon).2.length ≤ 2) ∧
    (∃ rest, (getWeatherForIncident env lat lon).2 = pointsRequest env lat lon :: rest) ∧
    (∀ d, (getWeatherForIncident env lat lon).1 = .ok d ↔
      (∃ body resp body2 hresp rest,
        env.fetch (pointsURLFor env lat lon) = .response 200 (.ok body) ∧
        env.unmarshalPoints body = some resp ∧
        resp.properties.forecastHourly ≠ "" ∧
        env.fetch (resp.properties.forecastHourly ++ "?units=us")
          = .response 200 (.ok body2) ∧
        env.unmarshalHourly body2 = some hresp ∧
        hresp.properties.periods = d :: rest ∧
        (getWeatherForIncident env lat lon).2
          = [pointsRequest env lat lon,
             hourlyRequest resp.properties.forecastHourly])) := by
  unfold getWeatherForIncident
  cases hpo : pointsOutcome env (pointsURLFor env lat lon) with
  | error e =>
    refine ⟨by simp, ⟨[], rfl⟩, ?_⟩
    intro d
    constructor
    · intro h
      exact absurd h (by simp)
    · rintro ⟨body, resp, body2, hresp, rest, h1, h2, h3, -⟩
      have hok : pointsOutcome env (pointsURLFor env lat lon)
          = .ok resp.properties.forecastHourly :=
        (pointsOutcome_ok_iff env _ _).mpr ⟨body, resp, h1, h2, h3, rfl⟩
      rw [hpo] at hok
      exact absurd hok (by simp)
  | ok fURL =>
    refine ⟨by simp, ⟨[hourlyRequest fURL], rfl⟩, ?_⟩
    intro d
    obtain ⟨body, resp, h1, h2, h3, hu⟩ := (pointsOutcome_ok_iff env _ _).mp hpo
    constructor
    · intro hh
      obtain ⟨body2, hresp, rest, g1, g2, g3⟩ :=
        (hourlyOutcome_ok_iff env _ _).mp hh
      refine ⟨body, resp, body2, hresp, rest, h1, h2, h3, ?_, g2, g3, ?_⟩
      · rw [← hu]
        exact g1
      · rw [hu]
    · rintro ⟨body', resp', body2, hresp, rest, g1, g2, g3, g4, g5, g6, -⟩
      have hok : pointsOutcome env (pointsURLFor env lat lon)
          = .ok resp'.properties.forecastHourly :=
        (pointsOutcome_ok_iff env _ _).mpr ⟨body', resp', g1, g2, g3, rfl⟩
      rw [hpo] at hok
      injection hok with hf
      exact (hourlyOutcome_ok_iff env _ _).mpr
        ⟨body2, hresp, rest, by rw [hf]; exact g4, g5, g6⟩

/-- A sample environment in which both NWS calls fully succeed. -/
def wenvOk : WeatherEnv :=
  ⟨fun url =>
      if url = "https://api.weather.gov/points/35.5000,35.5000" then .response 200 (.ok "PTS")
      else if url = "https://forecast.test/hourly?units=us" then .response 200 (.ok "HR")
      else .transportError,
    fun b => if b = "PTS" then some ⟨⟨"https://forecast.test/hourly"⟩⟩ else none,
    fun b => if b = "HR" then some ⟨⟨[wdEx]⟩⟩ else none,
    fun _ => "35.5000"⟩

/-- Concrete instantiation of `enricher_two_call_protocol`: in a fully
successful environment the snapshot is the first period and the success
chain (both calls, in order) is realized. -/
theorem enricher_two_call_protocol_witness :
    ∃ body resp body2 hresp rest,
      wenvOk.fetch (pointsURLFor wenvOk 35.5 35.5) = .response 200 (.ok body) ∧
      wenvOk.unmarshalPoints body = some resp ∧
      resp.properties.forecastHourly ≠ "" ∧
      wenvOk.fetch (resp.properties.forecastHourly ++ "?units=us")
        = .response 200 (.ok body2) ∧
      wenvOk.unmarshalHourly body2 = some hresp ∧
      hresp.properties.periods = wdEx :: rest ∧
      (getWeatherForIncident wenvOk 35.5 35.5).2
        = [pointsRequest wenvOk 35.5 35.5,
           hourlyRequest resp.properties.forecastHourly] :=
  ((enricher_two_call_protocol wenvOk 35.5 35.5).2.2 wdEx).mp rfl

/-- C8: every HTTP request the enricher issues is sent through the client
configured with the fixed timeout of 10 seconds, so a hanging remote
endpoint yields a bounded-time enrichment failure. -/
theorem enricher_timeout_bound (env : WeatherEnv) (lat lon : Float) :
    clientTimeoutSeconds = 10 ∧
    ((getWeatherForIncident env lat lon).2.all
      (fun r => r.timeoutSeconds == clientTimeoutSeconds)) = true := by
  refine ⟨rfl, ?_⟩
  unfold getWeatherForIncident
  cases pointsOutcome env (pointsURLFor env lat lon) with
  | error e => rfl
  | ok fURL => rfl

/-- First of a colliding pair of distinct incidents. -/
def collideA : Incident := ⟨"Wake", "MVC", "b", 1.0, 2.0, "a "⟩

/-- Second of a colliding pair of distinct incidents. -/
def collideB : Incident := ⟨"Durham", "MVC second", " b", 3.0, 4.0, "a"⟩

/-- C10: the source_id derivation (timestamp ++ " " ++ address) is not
injective: two incidents with different timestamp and address strings map
to the same (source, source_id) key, so upserting both yields a single row
— the second overwrites the first's row instead of creating a second one. -/
theorem source_id_not_injective :
    collideA.timestamp ≠ collideB.timestamp ∧
    collideA.address ≠ collideB.address ∧
    mkSourceId collideA = mkSourceId collideB ∧
    (upsert (upsert [] (mkValues collideA none nowEx)) (mkValues collideB none nowEx)).length
      = 1 ∧
    ((upsert (upsert [] (mkValues collideA none nowEx)) (mkValues collideB none nowEx)).map
        (fun r => r.details.raw_incident.address)) = [" b"] :=
  ⟨by decide, by decide, by decide, by decide, by rfl⟩
